import Mathlib

/-!
Shallow embedding of `gammafit/sherpamod.py`: sherpa model adapters around the
one-zone emission evaluators (`ElectronOZM`, `ProtonOZM`).  Arrays of floats are
modelled as `List ℚ`; numpy operations raising exceptions are modelled with
`Option`.  The external emission-physics evaluators are opaque: the adapters are
parameterised over the function that maps the constructed evaluator
configuration to the flux-density curve it returns.
-/

/-- `_mergex(xlo, xhi, midpoints)`: builds `x` of length `N+1` with `x[:N]=xlo`
and `x[-1]=xhi[-1]` (an `IndexError` when `xhi` is empty is modelled as `none`);
with `midpoints` it appends the midpoints `(xlo+xhi)/2` (numpy elementwise
addition needs equal shapes, modelled as `none` otherwise) and sorts
the combined array ascending. -/
def mergex (xlo xhi : List ℚ) (midpoints : Bool := false) : Option (List ℚ) :=
  match xhi.getLast? with
  | none => none
  | some hlast =>
    let x := xlo ++ [hlast]
    if midpoints then
      if xlo.length = xhi.length then
        some (List.insertionSort (fun a b => a ≤ b)
          (x ++ List.zipWith (fun a b => (a + b) / 2) xlo xhi))
      else none
    else some x

/-- The per-bin trapezoid array
`(outspec[1:]-outspec[:-1])*((model[1:]+model[:-1])/2.)` shared by the three
`calc` methods. -/
def trapzPerBin (outspec model : List ℚ) : List ℚ :=
  List.zipWith (fun dx my => dx * my)
    (List.zipWith (fun a b => b - a) outspec outspec.tail)
    (List.zipWith (fun a b => (a + b) / 2) model model.tail)

/-- `np.trapz(y, x)`: trapezoidal integral, the sum of the per-bin
trapezoids. -/
def np.trapz (y x : List ℚ) : ℚ :=
  (trapzPerBin x y).sum

/-- Modelled from the spec: the argument record handed to the external
`ElectronOZM` evaluator constructor (energy grid, amplitude, spectral index,
reference and cutoff energies, curvature exponent, optional field strength,
seed-photon-field list, numerical-stability flag, Lorentz-factor grid
settings).  The evaluator itself is an opaque external collaborator. -/
structure ElectronOZM where
  outspec : List ℚ
  ampl : ℚ
  index : ℚ
  norm_energy : ℚ
  cutoff : ℚ
  beta : ℚ
  B : Option ℚ
  seedspec : List String
  nolog : Bool
  gmin : ℚ
  gmax : ℚ
  ngamd : ℚ
deriving DecidableEq

/-- Modelled from the spec: the argument record handed to the external
`ProtonOZM` evaluator constructor.  `cutoff` is optional (`None` disables
it). -/
structure ProtonOZM where
  outspec : List ℚ
  ampl : ℚ
  index : ℚ
  norm_energy : ℚ
  cutoff : Option ℚ
  beta : ℚ
  seedspec : List String
  nolog : Bool
  Etrans : ℚ
deriving DecidableEq

/-- The parameter set of the `InverseCompton` sherpa model, with the default
values from its `__init__` (`index=2.0, ref=20, ampl=1, cutoff=1e15,
beta=1`). -/
structure InverseCompton where
  index : ℚ := 2
  ref : ℚ := 20
  ampl : ℚ := 1
  cutoff : ℚ := 10 ^ 15
  beta : ℚ := 1
deriving DecidableEq

/-- `[p.val for p in self.pars]` for `InverseCompton`: the fixed parameter
order `(index, ref, ampl, cutoff, beta)`. -/
def InverseCompton.pars (s : InverseCompton) : List ℚ :=
  [s.index, s.ref, s.ampl, s.cutoff, s.beta]

/-- The `ElectronOZM(...)` construction inside `InverseCompton.calc`: grid in
eV, `norm_energy=ref*1e12`, `cutoff=cutoff*1e12`, CMB seed field, fixed
Lorentz-factor grid; no `B` argument is passed. -/
def InverseCompton.mkozm (index ref ampl cutoff beta : ℚ) (outspec : List ℚ) :
    ElectronOZM :=
  { outspec := outspec
    ampl := ampl
    index := index
    norm_energy := ref * 10 ^ 12
    cutoff := cutoff * 10 ^ 12
    beta := beta
    B := none
    seedspec := ["CMB"]
    nolog := true
    gmin := 10 ^ 5
    gmax := 10 ^ 10
    ngamd := 30 }

/-- `InverseCompton.calc(p, xlo, xhi)`: unpack the five parameters (a vector of
any other arity raises, modelled as `none`), merge the keV bin edges and
convert to eV, invoke the inverse-Compton evaluator (opaque, passed as
`specic`, standing for `ozm.calc_ic(); ozm.specic`), and integrate the
returned curve bin-by-bin. -/
def InverseCompton.«calc» (specic : ElectronOZM → List ℚ) (p : List ℚ)
    (xlo xhi : List ℚ) : Option (List ℚ) :=
  match p with
  | [index, ref, ampl, cutoff, beta] =>
    (mergex xlo xhi false).map fun x =>
      let outspec := x.map (fun e => e * 1000)
      let model := specic (InverseCompton.mkozm index ref ampl cutoff beta outspec)
      trapzPerBin outspec model
  | _ => none

/-- `InverseCompton.guess(dep, xlo, xhi)`: evaluate the model at the current
parameter values, trapz-integrate model and observed flux, and rescale the
amplitude by `obsflux/modflux`.  The mutation of `self.ampl` is modelled by
returning the updated parameter set. -/
def InverseCompton.guess (specic : ElectronOZM → List ℚ) (s : InverseCompton)
    (dep xlo xhi : List ℚ) : Option InverseCompton :=
  (InverseCompton.«calc» specic (InverseCompton.pars s) xlo xhi).map fun model =>
    let modflux := np.trapz model xlo
    let obsflux := np.trapz (List.zipWith (fun d w => d * w) dep
      (List.zipWith (fun h l => h - l) xhi xlo)) xlo
    { s with ampl := s.ampl * obsflux / modflux }

/-- The parameter set of the `Synchrotron` sherpa model, with the default
values from its `__init__` (`index=2.0, ref=20, ampl=1, cutoff=1e15, beta=1,
B=1`). -/
structure Synchrotron where
  index : ℚ := 2
  ref : ℚ := 20
  ampl : ℚ := 1
  cutoff : ℚ := 10 ^ 15
  beta : ℚ := 1
  B : ℚ := 1
deriving DecidableEq

/-- `[p.val for p in self.pars]` for `Synchrotron`: the fixed parameter order
`(index, ref, ampl, cutoff, beta, B)`. -/
def Synchrotron.pars (s : Synchrotron) : List ℚ :=
  [s.index, s.ref, s.ampl, s.cutoff, s.beta, s.B]

/-- The `ElectronOZM(...)` construction inside `Synchrotron.calc`; identical to
the inverse-Compton one except that the magnetic field `B` is passed. -/
def Synchrotron.mkozm (index ref ampl cutoff beta B : ℚ) (outspec : List ℚ) :
    ElectronOZM :=
  { outspec := outspec
    ampl := ampl
    index := index
    norm_energy := ref * 10 ^ 12
    cutoff := cutoff * 10 ^ 12
    beta := beta
    B := some B
    seedspec := ["CMB"]
    nolog := true
    gmin := 10 ^ 5
    gmax := 10 ^ 10
    ngamd := 30 }

/-- `Synchrotron.calc(p, xlo, xhi)`: as for inverse-Compton but unpacking six
parameters and invoking the synchrotron evaluator (`ozm.calc_sy();
ozm.specsy`, opaque, passed as `specsy`). -/
def Synchrotron.«calc» (specsy : ElectronOZM → List ℚ) (p : List ℚ)
    (xlo xhi : List ℚ) : Option (List ℚ) :=
  match p with
  | [index, ref, ampl, cutoff, beta, B] =>
    (mergex xlo xhi false).map fun x =>
      let outspec := x.map (fun e => e * 1000)
      let model := specsy (Synchrotron.mkozm index ref ampl cutoff beta B outspec)
      trapzPerBin outspec model
  | _ => none

/-- `Synchrotron.guess(dep, xlo, xhi)`: same amplitude rescaling as the other
variants. -/
def Synchrotron.guess (specsy : ElectronOZM → List ℚ) (s : Synchrotron)
    (dep xlo xhi : List ℚ) : Option Synchrotron :=
  (Synchrotron.«calc» specsy (Synchrotron.pars s) xlo xhi).map fun model =>
    let modflux := np.trapz model xlo
    let obsflux := np.trapz (List.zipWith (fun d w => d * w) dep
      (List.zipWith (fun h l => h - l) xhi xlo)) xlo
    { s with ampl := s.ampl * obsflux / modflux }

/-- The parameter set of the `PionDecay` sherpa model, with the default values
from its `__init__` (`index=2.1, ref=60, ampl=100, cutoff=0, beta=1`). -/
structure PionDecay where
  index : ℚ := 21 / 10
  ref : ℚ := 60
  ampl : ℚ := 100
  cutoff : ℚ := 0
  beta : ℚ := 1
deriving DecidableEq

/-- `[p.val for p in self.pars]` for `PionDecay`: the fixed parameter order
`(index, ref, ampl, cutoff, beta)`. -/
def PionDecay.pars (s : PionDecay) : List ℚ :=
  [s.index, s.ref, s.ampl, s.cutoff, s.beta]

/-- The cutoff sentinel at the top of `PionDecay.calc`:
`if cutoff == 0: cutoff = None` (no cutoff) `else: cutoff *= 1e12`. -/
def PionDecay.cutoffArg (cutoff : ℚ) : Option ℚ :=
  if cutoff = 0 then none else some (cutoff * 10 ^ 12)

/-- The `ProtonOZM(...)` construction inside `PionDecay.calc`: grid in eV,
`norm_energy=ref*1e12`, the (optional) cutoff argument, CMB seed field, fixed
transition energy `Etrans=1e10`. -/
def PionDecay.mkozm (index ref ampl : ℚ) (cutoff : Option ℚ) (beta : ℚ)
    (outspec : List ℚ) : ProtonOZM :=
  { outspec := outspec
    ampl := ampl
    index := index
    norm_energy := ref * 10 ^ 12
    cutoff := cutoff
    beta := beta
    seedspec := ["CMB"]
    nolog := true
    Etrans := 10 ^ 10 }

/-- `PionDecay.calc(p, xlo, xhi)`: unpack the five parameters, apply the
cutoff sentinel, merge the keV bin edges and convert to eV, invoke the
pion-decay evaluator (`ozm.calc_outspec(); ozm.specpp`, opaque, passed as
`specpp`), and integrate the returned curve bin-by-bin. -/
def PionDecay.«calc» (specpp : ProtonOZM → List ℚ) (p : List ℚ)
    (xlo xhi : List ℚ) : Option (List ℚ) :=
  match p with
  | [index, ref, ampl, cutoff, beta] =>
    (mergex xlo xhi false).map fun x =>
      let outspec := x.map (fun e => e * 1000)
      let model := specpp (PionDecay.mkozm index ref ampl
        (PionDecay.cutoffArg cutoff) beta outspec)
      trapzPerBin outspec model
  | _ => none

/-- `PionDecay.guess(dep, xlo, xhi)`: same amplitude rescaling as the other
variants. -/
def PionDecay.guess (specpp : ProtonOZM → List ℚ) (s : PionDecay)
    (dep xlo xhi : List ℚ) : Option PionDecay :=
  (PionDecay.«calc» specpp (PionDecay.pars s) xlo xhi).map fun model =>
    let modflux := np.trapz model xlo
    let obsflux := np.trapz (List.zipWith (fun d w => d * w) dep
      (List.zipWith (fun h l => h - l) xhi xlo)) xlo
    { s with ampl := s.ampl * obsflux / modflux }

theorem mergex_false_eq (xlo xhi : List ℚ) (h : xhi ≠ []) :
    mergex xlo xhi false = some (xlo ++ [xhi.getLast h]) := by
  simp [mergex, List.getLast?_eq_getLast xhi h]

theorem mergex_true_eq (xlo xhi : List ℚ) (hlen : xlo.length = xhi.length)
    (h : xhi ≠ []) :
    mergex xlo xhi true = some (List.insertionSort (fun a b => a ≤ b)
      ((xlo ++ [xhi.getLast h]) ++ List.zipWith (fun a b => (a + b) / 2) xlo xhi)) := by
  simp [mergex, List.getLast?_eq_getLast xhi h, hlen]

/-- C2: for equal-length edge sequences with at least one bin, `_mergex`
without midpoints returns the `N` low edges in order followed by the final
high edge, `N+1` points in all. -/
theorem mergex_no_midpoints (xlo xhi : List ℚ) (hlen : xlo.length = xhi.length)
    (hne : xhi ≠ []) :
    mergex xlo xhi false = some (xlo ++ [xhi.getLast hne]) ∧
    (xlo ++ [xhi.getLast hne]).length = xlo.length + 1 := by
  exact ⟨mergex_false_eq xlo xhi hne, by simp⟩

theorem mergex_no_midpoints_w :
    mergex [1, 2, 3] [2, 3, 4] false
      = some ([1, 2, 3] ++ [List.getLast [2, 3, 4] (by decide)]) ∧
    (([1, 2, 3] : List ℚ) ++ [List.getLast [2, 3, 4] (by decide)]).length
      = ([1, 2, 3] : List ℚ).length + 1 :=
  mergex_no_midpoints [1, 2, 3] [2, 3, 4] (by decide) (by decide)

/-- C3: for equal-length edge sequences with at least one bin, `_mergex` with
midpoints returns `2N+1` points, sorted ascending, consisting of the base
output together with the `N` midpoints `(lo[i]+hi[i])/2`. -/
theorem mergex_with_midpoints (xlo xhi : List ℚ)
    (hlen : xlo.length = xhi.length) (hne : xhi ≠ []) :
    (mergex xlo xhi true).isSome ∧
    ((mergex xlo xhi true).getD []).length = 2 * xlo.length + 1 ∧
    ((mergex xlo xhi true).getD []).Sorted (fun a b => a ≤ b) ∧
    ((mergex xlo xhi true).getD []).Perm
      ((xlo ++ [xhi.getLast hne]) ++ List.zipWith (fun a b => (a + b) / 2) xlo xhi) := by
  rw [mergex_true_eq xlo xhi hlen hne]
  refine ⟨rfl, ?_, List.sorted_insertionSort _ _, List.perm_insertionSort _ _⟩
  simp [List.length_insertionSort, List.length_zipWith, ← hlen]
  omega

theorem mergex_with_midpoints_w :
    (mergex [1, 2] [2, 3] true).isSome ∧
    ((mergex [1, 2] [2, 3] true).getD []).length = 2 * ([1, 2] : List ℚ).length + 1 ∧
    ((mergex [1, 2] [2, 3] true).getD []).Sorted (fun a b => a ≤ b) ∧
    ((mergex [1, 2] [2, 3] true).getD []).Perm
      (([1, 2] ++ [List.getLast [2, 3] (by decide)])
        ++ List.zipWith (fun a b => (a + b) / 2) [1, 2] [2, 3]) :=
  mergex_with_midpoints [1, 2] [2, 3] (by decide) (by decide)

theorem calc_ic_eq (specic : ElectronOZM → List ℚ) (index ref ampl cutoff beta : ℚ)
    (xlo xhi g : List ℚ) (hg : mergex xlo xhi false = some g) :
    InverseCompton.«calc» specic [index, ref, ampl, cutoff, beta] xlo xhi
      = some (trapzPerBin (g.map (fun e => e * 1000))
          (specic (InverseCompton.mkozm index ref ampl cutoff beta
            (g.map (fun e => e * 1000))))) := by
  simp [InverseCompton.«calc», hg]

theorem calc_sy_eq (specsy : ElectronOZM → List ℚ) (index ref ampl cutoff beta B : ℚ)
    (xlo xhi g : List ℚ) (hg : mergex xlo xhi false = some g) :
    Synchrotron.«calc» specsy [index, ref, ampl, cutoff, beta, B] xlo xhi
      = some (trapzPerBin (g.map (fun e => e * 1000))
          (specsy (Synchrotron.mkozm index ref ampl cutoff beta B
            (g.map (fun e => e * 1000))))) := by
  simp [Synchrotron.«calc», hg]

theorem calc_pp_eq (specpp : ProtonOZM → List ℚ) (index ref ampl cutoff beta : ℚ)
    (xlo xhi g : List ℚ) (hg : mergex xlo xhi false = some g) :
    PionDecay.«calc» specpp [index, ref, ampl, cutoff, beta] xlo xhi
      = some (trapzPerBin (g.map (fun e => e * 1000))
          (specpp (PionDecay.mkozm index ref ampl (PionDecay.cutoffArg cutoff) beta
            (g.map (fun e => e * 1000))))) := by
  simp [PionDecay.«calc», hg]

theorem trapzPerBin_length (g m : List ℚ) (hm : m.length = g.length) :
    (trapzPerBin g m).length = g.length - 1 := by
  simp [trapzPerBin, List.length_zipWith, List.length_tail, hm]

theorem trapzPerBin_getD (g m : List ℚ) (i : ℕ) (h1 : i + 1 < g.length)
    (h2 : i + 1 < m.length) :
    (trapzPerBin g m).getD i 0
      = (g.getD (i + 1) 0 - g.getD i 0) * ((m.getD i 0 + m.getD (i + 1) 0) / 2) := by
  have hg : i < g.length := by omega
  have hm' : i < m.length := by omega
  simp only [trapzPerBin, List.getD_eq_getElem?_getD, List.getElem?_zipWith',
    List.getElem?_tail]
  simp [List.getElem?_eq_getElem, h1, h2, hg, hm']

/-- C1: for a merged grid of length `N+1` (in eV, i.e. `_mergex(xlo,xhi)*1e3`)
and the model curve the physics evaluator returns on that grid, every output
bin `i` of `calc` — for each of `InverseCompton`, `Synchrotron` and
`PionDecay` — equals `(g[i+1]-g[i]) * (m[i]+m[i+1])/2`. -/
theorem calc_per_bin_trapezoid (specic specsy : ElectronOZM → List ℚ)
    (specpp : ProtonOZM → List ℚ)
    (hic : ∀ cfg, (specic cfg).length = cfg.outspec.length)
    (hsy : ∀ cfg, (specsy cfg).length = cfg.outspec.length)
    (hpp : ∀ cfg, (specpp cfg).length = cfg.outspec.length)
    (index ref ampl cutoff beta B : ℚ) (xlo xhi g : List ℚ)
    (hg : mergex xlo xhi false = some g) (i : ℕ)
    (hi : i + 1 < (g.map (fun e => e * 1000)).length) :
    (((InverseCompton.«calc» specic [index, ref, ampl, cutoff, beta] xlo xhi).getD
        []).getD i 0
      = ((g.map (fun e => e * 1000)).getD (i + 1) 0
          - (g.map (fun e => e * 1000)).getD i 0)
        * (((specic (InverseCompton.mkozm index ref ampl cutoff beta
              (g.map (fun e => e * 1000)))).getD i 0
            + (specic (InverseCompton.mkozm index ref ampl cutoff beta
              (g.map (fun e => e * 1000)))).getD (i + 1) 0) / 2)) ∧
    (((Synchrotron.«calc» specsy [index, ref, ampl, cutoff, beta, B] xlo xhi).getD
        []).getD i 0
      = ((g.map (fun e => e * 1000)).getD (i + 1) 0
          - (g.map (fun e => e * 1000)).getD i 0)
        * (((specsy (Synchrotron.mkozm index ref ampl cutoff beta B
              (g.map (fun e => e * 1000)))).getD i 0
            + (specsy (Synchrotron.mkozm index ref ampl cutoff beta B
              (g.map (fun e => e * 1000)))).getD (i + 1) 0) / 2)) ∧
    (((PionDecay.«calc» specpp [index, ref, ampl, cutoff, beta] xlo xhi).getD
        []).getD i 0
      = ((g.map (fun e => e * 1000)).getD (i + 1) 0
          - (g.map (fun e => e * 1000)).getD i 0)
        * (((specpp (PionDecay.mkozm index ref ampl (PionDecay.cutoffArg cutoff) beta
              (g.map (fun e => e * 1000)))).getD i 0
            + (specpp (PionDecay.mkozm index ref ampl (PionDecay.cutoffArg cutoff) beta
              (g.map (fun e => e * 1000)))).getD (i + 1) 0) / 2)) := by
  refine ⟨?_, ?_, ?_⟩
  · rw [calc_ic_eq specic index ref ampl cutoff beta xlo xhi g hg]
    exact trapzPerBin_getD _ _ i hi (by rw [hic]; exact hi)
  · rw [calc_sy_eq specsy index ref ampl cutoff beta B xlo xhi g hg]
    exact trapzPerBin_getD _ _ i hi (by rw [hsy]; exact hi)
  · rw [calc_pp_eq specpp index ref ampl cutoff beta xlo xhi g hg]
    exact trapzPerBin_getD _ _ i hi (by rw [hpp]; exact hi)

theorem calc_per_bin_trapezoid_w :
    (((InverseCompton.«calc» (fun c => c.outspec) [1, 1, 1, 1, 1] [1, 2] [2, 3]).getD
        []).getD 0 0
      = ((([1, 2, 3] : List ℚ).map (fun e => e * 1000)).getD 1 0
          - (([1, 2, 3] : List ℚ).map (fun e => e * 1000)).getD 0 0)
        * (((InverseCompton.mkozm 1 1 1 1 1
              (([1, 2, 3] : List ℚ).map (fun e => e * 1000))).outspec.getD 0 0
            + (InverseCompton.mkozm 1 1 1 1 1
              (([1, 2, 3] : List ℚ).map (fun e => e * 1000))).outspec.getD 1 0) / 2)) ∧
    (((Synchrotron.«calc» (fun c => c.outspec) [1, 1, 1, 1, 1, 1] [1, 2] [2, 3]).getD
        []).getD 0 0
      = ((([1, 2, 3] : List ℚ).map (fun e => e * 1000)).getD 1 0
          - (([1, 2, 3] : List ℚ).map (fun e => e * 1000)).getD 0 0)
        * (((Synchrotron.mkozm 1 1 1 1 1 1
              (([1, 2, 3] : List ℚ).map (fun e => e * 1000))).outspec.getD 0 0
            + (Synchrotron.mkozm 1 1 1 1 1 1
              (([1, 2, 3] : List ℚ).map (fun e => e * 1000))).outspec.getD 1 0) / 2)) ∧
    (((PionDecay.«calc» (fun c => c.outspec) [1, 1, 1, 1, 1] [1, 2] [2, 3]).getD
        []).getD 0 0
      = ((([1, 2, 3] : List ℚ).map (fun e => e * 1000)).getD 1 0
          - (([1, 2, 3] : List ℚ).map (fun e => e * 1000)).getD 0 0)
        * (((PionDecay.mkozm 1 1 1 (PionDecay.cutoffArg 1) 1
              (([1, 2, 3] : List ℚ).map (fun e => e * 1000))).outspec.getD 0 0
            + (PionDecay.mkozm 1 1 1 (PionDecay.cutoffArg 1) 1
              (([1, 2, 3] : List ℚ).map (fun e => e * 1000))).outspec.getD 1 0) / 2)) :=
  calc_per_bin_trapezoid (fun c => c.outspec) (fun c => c.outspec) (fun c => c.outspec)
    (fun _ => rfl) (fun _ => rfl) (fun _ => rfl) 1 1 1 1 1 1 [1, 2] [2, 3] [1, 2, 3]
    (by decide) 0 (by decide)

/-- C4: for `N` input bin edges (equal-length `xlo`, `xhi`, `N ≥ 1`) and an
evaluator returning a curve aligned with its grid, `calc` of each of the three
model classes returns an array of length exactly `N`, one less than the
merged-grid length. -/
theorem calc_output_length (specic specsy : ElectronOZM → List ℚ)
    (specpp : ProtonOZM → List ℚ)
    (hic : ∀ cfg, (specic cfg).length = cfg.outspec.length)
    (hsy : ∀ cfg, (specsy cfg).length = cfg.outspec.length)
    (hpp : ∀ cfg, (specpp cfg).length = cfg.outspec.length)
    (index ref ampl cutoff beta B : ℚ) (xlo xhi : List ℚ)
    (hlen : xlo.length = xhi.length) (hne : xhi ≠ []) :
    ((InverseCompton.«calc» specic [index, ref, ampl, cutoff, beta] xlo xhi).isSome ∧
      ((InverseCompton.«calc» specic [index, ref, ampl, cutoff, beta] xlo
        xhi).getD []).length = xlo.length) ∧
    ((Synchrotron.«calc» specsy [index, ref, ampl, cutoff, beta, B] xlo xhi).isSome ∧
      ((Synchrotron.«calc» specsy [index, ref, ampl, cutoff, beta, B] xlo
        xhi).getD []).length = xlo.length) ∧
    ((PionDecay.«calc» specpp [index, ref, ampl, cutoff, beta] xlo xhi).isSome ∧
      ((PionDecay.«calc» specpp [index, ref, ampl, cutoff, beta] xlo
        xhi).getD []).length = xlo.length) := by
  have hg := mergex_false_eq xlo xhi hne
  have hglen : ((xlo ++ [xhi.getLast hne]).map (fun e => e * 1000)).length
      = xlo.length + 1 := by simp
  refine ⟨⟨?_, ?_⟩, ⟨?_, ?_⟩, ⟨?_, ?_⟩⟩
  · rw [calc_ic_eq specic index ref ampl cutoff beta xlo xhi _ hg]; rfl
  · rw [calc_ic_eq specic index ref ampl cutoff beta xlo xhi _ hg]
    rw [Option.getD_some, trapzPerBin_length _ _ (by rw [hic]; rfl), hglen]
    omega
  · rw [calc_sy_eq specsy index ref ampl cutoff beta B xlo xhi _ hg]; rfl
  · rw [calc_sy_eq specsy index ref ampl cutoff beta B xlo xhi _ hg]
    rw [Option.getD_some, trapzPerBin_length _ _ (by rw [hsy]; rfl), hglen]
    omega
  · rw [calc_pp_eq specpp index ref ampl cutoff beta xlo xhi _ hg]; rfl
  · rw [calc_pp_eq specpp index ref ampl cutoff beta xlo xhi _ hg]
    rw [Option.getD_some, trapzPerBin_length _ _ (by rw [hpp]; rfl), hglen]
    omega

theorem calc_output_length_w :
    ((InverseCompton.«calc» (fun c => c.outspec) [1, 1, 1, 1, 1] [1, 2] [2, 3]).isSome ∧
      ((InverseCompton.«calc» (fun c => c.outspec) [1, 1, 1, 1, 1] [1, 2]
        [2, 3]).getD []).length = ([1, 2] : List ℚ).length) ∧
    ((Synchrotron.«calc» (fun c => c.outspec) [1, 1, 1, 1, 1, 1] [1, 2] [2, 3]).isSome ∧
      ((Synchrotron.«calc» (fun c => c.outspec) [1, 1, 1, 1, 1, 1] [1, 2]
        [2, 3]).getD []).length = ([1, 2] : List ℚ).length) ∧
    ((PionDecay.«calc» (fun c => c.outspec) [1, 1, 1, 1, 1] [1, 2] [2, 3]).isSome ∧
      ((PionDecay.«calc» (fun c => c.outspec) [1, 1, 1, 1, 1] [1, 2]
        [2, 3]).getD []).length = ([1, 2] : List ℚ).length) :=
  calc_output_length (fun c => c.outspec) (fun c => c.outspec) (fun c => c.outspec)
    (fun _ => rfl) (fun _ => rfl) (fun _ => rfl) 1 1 1 1 1 1 [1, 2] [2, 3]
    (by decide) (by decide)

/-- C5: in `PionDecay.calc` a cutoff of exactly zero is passed to the
evaluator as an absent value (`None`), while any nonzero cutoff `c` is passed
as `c*1e12`; `calc` hands exactly this argument to the evaluator
configuration. -/
theorem piondecay_cutoff_sentinel (specpp : ProtonOZM → List ℚ)
    (index ref ampl beta : ℚ) (xlo xhi g : List ℚ)
    (hg : mergex xlo xhi false = some g) :
    (∀ cutoff : ℚ,
      PionDecay.«calc» specpp [index, ref, ampl, cutoff, beta] xlo xhi
        = some (trapzPerBin (g.map (fun e => e * 1000))
            (specpp (PionDecay.mkozm index ref ampl (PionDecay.cutoffArg cutoff) beta
              (g.map (fun e => e * 1000)))))) ∧
    PionDecay.cutoffArg 0 = none ∧
    (∀ c : ℚ, c ≠ 0 → PionDecay.cutoffArg c = some (c * 10 ^ 12)) ∧
    (∀ o : Option ℚ,
      (PionDecay.mkozm index ref ampl o beta (g.map (fun e => e * 1000))).cutoff = o) := by
  refine ⟨fun cutoff => calc_pp_eq specpp index ref ampl cutoff beta xlo xhi g hg,
    by simp [PionDecay.cutoffArg], fun c hc => by simp [PionDecay.cutoffArg, hc],
    fun o => rfl⟩

theorem piondecay_cutoff_sentinel_w :
    (∀ cutoff : ℚ,
      PionDecay.«calc» (fun c => c.outspec) [1, 1, 1, cutoff, 1] [1, 2] [2, 3]
        = some (trapzPerBin (([1, 2, 3] : List ℚ).map (fun e => e * 1000))
            ((fun c => c.outspec) (PionDecay.mkozm 1 1 1 (PionDecay.cutoffArg cutoff) 1
              (([1, 2, 3] : List ℚ).map (fun e => e * 1000)))))) ∧
    PionDecay.cutoffArg 0 = none ∧
    (∀ c : ℚ, c ≠ 0 → PionDecay.cutoffArg c = some (c * 10 ^ 12)) ∧
    (∀ o : Option ℚ,
      (PionDecay.mkozm 1 1 1 o 1
        (([1, 2, 3] : List ℚ).map (fun e => e * 1000))).cutoff = o) :=
  piondecay_cutoff_sentinel (fun c => c.outspec) 1 1 1 1 [1, 2] [2, 3] [1, 2, 3]
    (by decide)

/-- C6: the energy grid handed to the physics evaluator by each `calc` is
`_mergex(xlo, xhi)` multiplied pointwise by 1000 (keV→eV), and the reference
(and, for the electron variants, cutoff) energies are passed multiplied by
`1e12`. -/
theorem calc_unit_conversion (specic specsy : ElectronOZM → List ℚ)
    (specpp : ProtonOZM → List ℚ) (index ref ampl cutoff beta B : ℚ)
    (xlo xhi g : List ℚ) (hg : mergex xlo xhi false = some g) :
    (InverseCompton.«calc» specic [index, ref, ampl, cutoff, beta] xlo xhi
      = some (trapzPerBin (g.map (fun e => e * 1000))
          (specic (InverseCompton.mkozm index ref ampl cutoff beta
            (g.map (fun e => e * 1000)))))) ∧
    ((InverseCompton.mkozm index ref ampl cutoff beta
        (g.map (fun e => e * 1000))).outspec = g.map (fun e => e * 1000) ∧
      (InverseCompton.mkozm index ref ampl cutoff beta
        (g.map (fun e => e * 1000))).norm_energy = ref * 10 ^ 12 ∧
      (InverseCompton.mkozm index ref ampl cutoff beta
        (g.map (fun e => e * 1000))).cutoff = cutoff * 10 ^ 12) ∧
    (Synchrotron.«calc» specsy [index, ref, ampl, cutoff, beta, B] xlo xhi
      = some (trapzPerBin (g.map (fun e => e * 1000))
          (specsy (Synchrotron.mkozm index ref ampl cutoff beta B
            (g.map (fun e => e * 1000)))))) ∧
    ((Synchrotron.mkozm index ref ampl cutoff beta B
        (g.map (fun e => e * 1000))).outspec = g.map (fun e => e * 1000) ∧
      (Synchrotron.mkozm index ref ampl cutoff beta B
        (g.map (fun e => e * 1000))).norm_energy = ref * 10 ^ 12 ∧
      (Synchrotron.mkozm index ref ampl cutoff beta B
        (g.map (fun e => e * 1000))).cutoff = cutoff * 10 ^ 12) ∧
    (PionDecay.«calc» specpp [index, ref, ampl, cutoff, beta] xlo xhi
      = some (trapzPerBin (g.map (fun e => e * 1000))
          (specpp (PionDecay.mkozm index ref ampl (PionDecay.cutoffArg cutoff) beta
            (g.map (fun e => e * 1000)))))) ∧
    ((PionDecay.mkozm index ref ampl (PionDecay.cutoffArg cutoff) beta
        (g.map (fun e => e * 1000))).outspec = g.map (fun e => e * 1000) ∧
      (PionDecay.mkozm index ref ampl (PionDecay.cutoffArg cutoff) beta
        (g.map (fun e => e * 1000))).norm_energy = ref * 10 ^ 12) :=
  ⟨calc_ic_eq specic index ref ampl cutoff beta xlo xhi g hg, ⟨rfl, rfl, rfl⟩,
    calc_sy_eq specsy index ref ampl cutoff beta B xlo xhi g hg, ⟨rfl, rfl, rfl⟩,
    calc_pp_eq specpp index ref ampl cutoff beta xlo xhi g hg, rfl, rfl⟩

theorem calc_unit_conversion_w :
    (InverseCompton.«calc» (fun c => c.outspec) [1, 1, 1, 1, 1] [1, 2] [2, 3]
      = some (trapzPerBin (([1, 2, 3] : List ℚ).map (fun e => e * 1000))
          ((fun c => c.outspec) (InverseCompton.mkozm 1 1 1 1 1
            (([1, 2, 3] : List ℚ).map (fun e => e * 1000)))))) ∧
    ((InverseCompton.mkozm 1 1 1 1 1
        (([1, 2, 3] : List ℚ).map (fun e => e * 1000))).outspec
          = ([1, 2, 3] : List ℚ).map (fun e => e * 1000) ∧
      (InverseCompton.mkozm 1 1 1 1 1
        (([1, 2, 3] : List ℚ).map (fun e => e * 1000))).norm_energy = 1 * 10 ^ 12 ∧
      (InverseCompton.mkozm 1 1 1 1 1
        (([1, 2, 3] : List ℚ).map (fun e => e * 1000))).cutoff = 1 * 10 ^ 12) ∧
    (Synchrotron.«calc» (fun c => c.outspec) [1, 1, 1, 1, 1, 1] [1, 2] [2, 3]
      = some (trapzPerBin (([1, 2, 3] : List ℚ).map (fun e => e * 1000))
          ((fun c => c.outspec) (Synchrotron.mkozm 1 1 1 1 1 1
            (([1, 2, 3] : List ℚ).map (fun e => e * 1000)))))) ∧
    ((Synchrotron.mkozm 1 1 1 1 1 1
        (([1, 2, 3] : List ℚ).map (fun e => e * 1000))).outspec
          = ([1, 2, 3] : List ℚ).map (fun e => e * 1000) ∧
      (Synchrotron.mkozm 1 1 1 1 1 1
        (([1, 2, 3] : List ℚ).map (fun e => e * 1000))).norm_energy = 1 * 10 ^ 12 ∧
      (Synchrotron.mkozm 1 1 1 1 1 1
        (([1, 2, 3] : List ℚ).map (fun e => e * 1000))).cutoff = 1 * 10 ^ 12) ∧
    (PionDecay.«calc» (fun c => c.outspec) [1, 1, 1, 1, 1] [1, 2] [2, 3]
      = some (trapzPerBin (([1, 2, 3] : List ℚ).map (fun e => e * 1000))
          ((fun c => c.outspec) (PionDecay.mkozm 1 1 1 (PionDecay.cutoffArg 1) 1
            (([1, 2, 3] : List ℚ).map (fun e => e * 1000)))))) ∧
    ((PionDecay.mkozm 1 1 1 (PionDecay.cutoffArg 1) 1
        (([1, 2, 3] : List ℚ).map (fun e => e * 1000))).outspec
          = ([1, 2, 3] : List ℚ).map (fun e => e * 1000) ∧
      (PionDecay.mkozm 1 1 1 (PionDecay.cutoffArg 1) 1
        (([1, 2, 3] : List ℚ).map (fun e => e * 1000))).norm_energy = 1 * 10 ^ 12) :=
  calc_unit_conversion (fun c => c.outspec) (fun c => c.outspec) (fun c => c.outspec)
    1 1 1 1 1 1 [1, 2] [2, 3] [1, 2, 3] (by decide)

/-- C10: the zero-means-disabled cutoff sentinel is specific to `PionDecay`:
`InverseCompton.calc` and `Synchrotron.calc` always pass `cutoff*1e12` (a plain
rational, never an absent value) to the evaluator, so `cutoff = 0` is passed as
the zero-energy cutoff `0`, while `PionDecay`'s sentinel maps `0` to `None`. -/
theorem electron_cutoff_not_sentinel (specic specsy : ElectronOZM → List ℚ)
    (index ref ampl beta B : ℚ) (xlo xhi g : List ℚ)
    (hg : mergex xlo xhi false = some g) :
    (∀ cutoff : ℚ,
      InverseCompton.«calc» specic [index, ref, ampl, cutoff, beta] xlo xhi
        = some (trapzPerBin (g.map (fun e => e * 1000))
            (specic (InverseCompton.mkozm index ref ampl cutoff beta
              (g.map (fun e => e * 1000)))))) ∧
    (∀ cutoff : ℚ,
      (InverseCompton.mkozm index ref ampl cutoff beta
        (g.map (fun e => e * 1000))).cutoff = cutoff * 10 ^ 12) ∧
    (InverseCompton.mkozm index ref ampl 0 beta
      (g.map (fun e => e * 1000))).cutoff = 0 ∧
    (∀ cutoff : ℚ,
      Synchrotron.«calc» specsy [index, ref, ampl, cutoff, beta, B] xlo xhi
        = some (trapzPerBin (g.map (fun e => e * 1000))
            (specsy (Synchrotron.mkozm index ref ampl cutoff beta B
              (g.map (fun e => e * 1000)))))) ∧
    (∀ cutoff : ℚ,
      (Synchrotron.mkozm index ref ampl cutoff beta B
        (g.map (fun e => e * 1000))).cutoff = cutoff * 10 ^ 12) ∧
    (Synchrotron.mkozm index ref ampl 0 beta B
      (g.map (fun e => e * 1000))).cutoff = 0 ∧
    PionDecay.cutoffArg 0 = none := by
  refine ⟨fun cutoff => calc_ic_eq specic index ref ampl cutoff beta xlo xhi g hg,
    fun cutoff => rfl, by simp [InverseCompton.mkozm],
    fun cutoff => calc_sy_eq specsy index ref ampl cutoff beta B xlo xhi g hg,
    fun cutoff => rfl, by simp [Synchrotron.mkozm],
    by simp [PionDecay.cutoffArg]⟩

theorem electron_cutoff_not_sentinel_w :
    (∀ cutoff : ℚ,
      InverseCompton.«calc» (fun c => c.outspec) [1, 1, 1, cutoff, 1] [1, 2] [2, 3]
        = some (trapzPerBin (([1, 2, 3] : List ℚ).map (fun e => e * 1000))
            ((fun c => c.outspec) (InverseCompton.mkozm 1 1 1 cutoff 1
              (([1, 2, 3] : List ℚ).map (fun e => e * 1000)))))) ∧
    (∀ cutoff : ℚ,
      (InverseCompton.mkozm 1 1 1 cutoff 1
        (([1, 2, 3] : List ℚ).map (fun e => e * 1000))).cutoff = cutoff * 10 ^ 12) ∧
    (InverseCompton.mkozm 1 1 1 0 1
      (([1, 2, 3] : List ℚ).map (fun e => e * 1000))).cutoff = 0 ∧
    (∀ cutoff : ℚ,
      Synchrotron.«calc» (fun c => c.outspec) [1, 1, 1, cutoff, 1, 1] [1, 2] [2, 3]
        = some (trapzPerBin (([1, 2, 3] : List ℚ).map (fun e => e * 1000))
            ((fun c => c.outspec) (Synchrotron.mkozm 1 1 1 cutoff 1 1
              (([1, 2, 3] : List ℚ).map (fun e => e * 1000)))))) ∧
    (∀ cutoff : ℚ,
      (Synchrotron.mkozm 1 1 1 cutoff 1 1
        (([1, 2, 3] : List ℚ).map (fun e => e * 1000))).cutoff = cutoff * 10 ^ 12) ∧
    (Synchrotron.mkozm 1 1 1 0 1 1
      (([1, 2, 3] : List ℚ).map (fun e => e * 1000))).cutoff = 0 ∧
    PionDecay.cutoffArg 0 = none :=
  electron_cutoff_not_sentinel (fun c => c.outspec) (fun c => c.outspec)
    1 1 1 1 1 [1, 2] [2, 3] [1, 2, 3] (by decide)

/-- C7: after `guess`, the amplitude equals its previous value times the ratio
of the trapezoidal integral of the observed flux (`np.trapz(dep*(xhi-xlo),
xlo)`) to the trapezoidal integral of the model evaluated at the old
parameter values (`np.trapz(model, xlo)`) — for all three model classes. -/
theorem guess_rescales_amplitude :
    (∀ (specic : ElectronOZM → List ℚ) (s : InverseCompton)
      (dep xlo xhi : List ℚ) (s' : InverseCompton),
      InverseCompton.guess specic s dep xlo xhi = some s' →
      s'.ampl = s.ampl
        * np.trapz (List.zipWith (fun d w => d * w) dep
            (List.zipWith (fun h l => h - l) xhi xlo)) xlo
        / np.trapz ((InverseCompton.«calc» specic (InverseCompton.pars s) xlo
            xhi).getD []) xlo) ∧
    (∀ (specsy : ElectronOZM → List ℚ) (s : Synchrotron)
      (dep xlo xhi : List ℚ) (s' : Synchrotron),
      Synchrotron.guess specsy s dep xlo xhi = some s' →
      s'.ampl = s.ampl
        * np.trapz (List.zipWith (fun d w => d * w) dep
            (List.zipWith (fun h l => h - l) xhi xlo)) xlo
        / np.trapz ((Synchrotron.«calc» specsy (Synchrotron.pars s) xlo
            xhi).getD []) xlo) ∧
    (∀ (specpp : ProtonOZM → List ℚ) (s : PionDecay)
      (dep xlo xhi : List ℚ) (s' : PionDecay),
      PionDecay.guess specpp s dep xlo xhi = some s' →
      s'.ampl = s.ampl
        * np.trapz (List.zipWith (fun d w => d * w) dep
            (List.zipWith (fun h l => h - l) xhi xlo)) xlo
        / np.trapz ((PionDecay.«calc» specpp (PionDecay.pars s) xlo
            xhi).getD []) xlo) := by
  refine ⟨?_, ?_, ?_⟩
  · intro specic s dep xlo xhi s' h
    rw [InverseCompton.guess] at h
    cases hc : InverseCompton.«calc» specic (InverseCompton.pars s) xlo xhi with
    | none => rw [hc] at h; exact absurd h (by simp)
    | some model =>
      rw [hc] at h
      simp only [Option.map_some', Option.some_inj] at h
      rw [Option.getD_some, ← h]
  · intro specsy s dep xlo xhi s' h
    rw [Synchrotron.guess] at h
    cases hc : Synchrotron.«calc» specsy (Synchrotron.pars s) xlo xhi with
    | none => rw [hc] at h; exact absurd h (by simp)
    | some model =>
      rw [hc] at h
      simp only [Option.map_some', Option.some_inj] at h
      rw [Option.getD_some, ← h]
  · intro specpp s dep xlo xhi s' h
    rw [PionDecay.guess] at h
    cases hc : PionDecay.«calc» specpp (PionDecay.pars s) xlo xhi with
    | none => rw [hc] at h; exact absurd h (by simp)
    | some model =>
      rw [hc] at h
      simp only [Option.map_some', Option.some_inj] at h
      rw [Option.getD_some, ← h]

theorem guess_rescales_amplitude_w :
    (({ ampl := 1 / 2000000 } : InverseCompton).ampl
      = ({} : InverseCompton).ampl
        * np.trapz (List.zipWith (fun d w => d * w) [1, 1]
            (List.zipWith (fun h l => h - l) [2, 3] [1, 2])) [1, 2]
        / np.trapz ((InverseCompton.«calc» (fun c => c.outspec)
            (InverseCompton.pars {}) [1, 2] [2, 3]).getD []) [1, 2]) ∧
    (({ ampl := 1 / 2000000 } : Synchrotron).ampl
      = ({} : Synchrotron).ampl
        * np.trapz (List.zipWith (fun d w => d * w) [1, 1]
            (List.zipWith (fun h l => h - l) [2, 3] [1, 2])) [1, 2]
        / np.trapz ((Synchrotron.«calc» (fun c => c.outspec)
            (Synchrotron.pars {}) [1, 2] [2, 3]).getD []) [1, 2]) ∧
    (({ ampl := 1 / 20000 } : PionDecay).ampl
      = ({} : PionDecay).ampl
        * np.trapz (List.zipWith (fun d w => d * w) [1, 1]
            (List.zipWith (fun h l => h - l) [2, 3] [1, 2])) [1, 2]
        / np.trapz ((PionDecay.«calc» (fun c => c.outspec)
            (PionDecay.pars {}) [1, 2] [2, 3]).getD []) [1, 2]) :=
  ⟨guess_rescales_amplitude.1 (fun c => c.outspec) {} [1, 1] [1, 2] [2, 3]
      { ampl := 1 / 2000000 }
      (by norm_num [InverseCompton.guess, InverseCompton.pars, InverseCompton.«calc»,
        InverseCompton.mkozm, mergex, np.trapz, trapzPerBin, List.getLast?]),
    guess_rescales_amplitude.2.1 (fun c => c.outspec) {} [1, 1] [1, 2] [2, 3]
      { ampl := 1 / 2000000 }
      (by norm_num [Synchrotron.guess, Synchrotron.pars, Synchrotron.«calc»,
        Synchrotron.mkozm, mergex, np.trapz, trapzPerBin, List.getLast?]),
    guess_rescales_amplitude.2.2 (fun c => c.outspec) {} [1, 1] [1, 2] [2, 3]
      { ampl := 1 / 20000 }
      (by norm_num [PionDecay.guess, PionDecay.pars, PionDecay.«calc»,
        PionDecay.mkozm, PionDecay.cutoffArg, mergex, np.trapz, trapzPerBin,
        List.getLast?])⟩

/-- C8: `guess` changes only the amplitude parameter: the spectral index,
reference energy, cutoff, beta — and, for the synchrotron variant, the
magnetic field — are unchanged (the adapter owns no other state; `guess`
itself produces no other value). -/
theorem guess_mutates_only_amplitude :
    (∀ (specic : ElectronOZM → List ℚ) (s : InverseCompton)
      (dep xlo xhi : List ℚ) (s' : InverseCompton),
      InverseCompton.guess specic s dep xlo xhi = some s' →
      s'.index = s.index ∧ s'.ref = s.ref ∧ s'.cutoff = s.cutoff ∧
        s'.beta = s.beta) ∧
    (∀ (specsy : ElectronOZM → List ℚ) (s : Synchrotron)
      (dep xlo xhi : List ℚ) (s' : Synchrotron),
      Synchrotron.guess specsy s dep xlo xhi = some s' →
      s'.index = s.index ∧ s'.ref = s.ref ∧ s'.cutoff = s.cutoff ∧
        s'.beta = s.beta ∧ s'.B = s.B) ∧
    (∀ (specpp : ProtonOZM → List ℚ) (s : PionDecay)
      (dep xlo xhi : List ℚ) (s' : PionDecay),
      PionDecay.guess specpp s dep xlo xhi = some s' →
      s'.index = s.index ∧ s'.ref = s.ref ∧ s'.cutoff = s.cutoff ∧
        s'.beta = s.beta) := by
  refine ⟨?_, ?_, ?_⟩
  · intro specic s dep xlo xhi s' h
    rw [InverseCompton.guess] at h
    cases hc : InverseCompton.«calc» specic (InverseCompton.pars s) xlo xhi with
    | none => rw [hc] at h; exact absurd h (by simp)
    | some model =>
      rw [hc] at h
      simp only [Option.map_some', Option.some_inj] at h
      rw [← h]
      exact ⟨rfl, rfl, rfl, rfl⟩
  · intro specsy s dep xlo xhi s' h
    rw [Synchrotron.guess] at h
    cases hc : Synchrotron.«calc» specsy (Synchrotron.pars s) xlo xhi with
    | none => rw [hc] at h; exact absurd h (by simp)
    | some model =>
      rw [hc] at h
      simp only [Option.map_some', Option.some_inj] at h
      rw [← h]
      exact ⟨rfl, rfl, rfl, rfl, rfl⟩
  · intro specpp s dep xlo xhi s' h
    rw [PionDecay.guess] at h
    cases hc : PionDecay.«calc» specpp (PionDecay.pars s) xlo xhi with
    | none => rw [hc] at h; exact absurd h (by simp)
    | some model =>
      rw [hc] at h
      simp only [Option.map_some', Option.some_inj] at h
      rw [← h]
      exact ⟨rfl, rfl, rfl, rfl⟩

theorem guess_mutates_only_amplitude_w :
    (({ ampl := 1 / 2000000 } : InverseCompton).index = ({} : InverseCompton).index ∧
      ({ ampl := 1 / 2000000 } : InverseCompton).ref = ({} : InverseCompton).ref ∧
      ({ ampl := 1 / 2000000 } : InverseCompton).cutoff = ({} : InverseCompton).cutoff ∧
      ({ ampl := 1 / 2000000 } : InverseCompton).beta = ({} : InverseCompton).beta) ∧
    (({ ampl := 1 / 2000000 } : Synchrotron).index = ({} : Synchrotron).index ∧
      ({ ampl := 1 / 2000000 } : Synchrotron).ref = ({} : Synchrotron).ref ∧
      ({ ampl := 1 / 2000000 } : Synchrotron).cutoff = ({} : Synchrotron).cutoff ∧
      ({ ampl := 1 / 2000000 } : Synchrotron).beta = ({} : Synchrotron).beta ∧
      ({ ampl := 1 / 2000000 } : Synchrotron).B = ({} : Synchrotron).B) ∧
    (({ ampl := 1 / 20000 } : PionDecay).index = ({} : PionDecay).index ∧
      ({ ampl := 1 / 20000 } : PionDecay).ref = ({} : PionDecay).ref ∧
      ({ ampl := 1 / 20000 } : PionDecay).cutoff = ({} : PionDecay).cutoff ∧
      ({ ampl := 1 / 20000 } : PionDecay).beta = ({} : PionDecay).beta) :=
  ⟨guess_mutates_only_amplitude.1 (fun c => c.outspec) {} [1, 1] [1, 2] [2, 3]
      { ampl := 1 / 2000000 }
      (by norm_num [InverseCompton.guess, InverseCompton.pars, InverseCompton.«calc»,
        InverseCompton.mkozm, mergex, np.trapz, trapzPerBin, List.getLast?]),
    guess_mutates_only_amplitude.2.1 (fun c => c.outspec) {} [1, 1] [1, 2] [2, 3]
      { ampl := 1 / 2000000 }
      (by norm_num [Synchrotron.guess, Synchrotron.pars, Synchrotron.«calc»,
        Synchrotron.mkozm, mergex, np.trapz, trapzPerBin, List.getLast?]),
    guess_mutates_only_amplitude.2.2 (fun c => c.outspec) {} [1, 1] [1, 2] [2, 3]
      { ampl := 1 / 20000 }
      (by norm_num [PionDecay.guess, PionDecay.pars, PionDecay.«calc»,
        PionDecay.mkozm, PionDecay.cutoffArg, mergex, np.trapz, trapzPerBin,
        List.getLast?])⟩

/-- C9: `calc` is deterministic and stateless: its per-bin output is a
function of the parameter vector, the bin edges and the single evaluator
response on the configuration built from them, so two calls with identical
inputs (and evaluators agreeing on that one configuration) return identical
arrays, and memoizing `calc` results is sound. -/
theorem calc_deterministic :
    (∀ (f₁ f₂ : ElectronOZM → List ℚ) (index ref ampl cutoff beta : ℚ)
      (xlo xhi : List ℚ),
      f₁ (InverseCompton.mkozm index ref ampl cutoff beta
          (((mergex xlo xhi false).getD []).map (fun e => e * 1000)))
        = f₂ (InverseCompton.mkozm index ref ampl cutoff beta
          (((mergex xlo xhi false).getD []).map (fun e => e * 1000))) →
      InverseCompton.«calc» f₁ [index, ref, ampl, cutoff, beta] xlo xhi
        = InverseCompton.«calc» f₂ [index, ref, ampl, cutoff, beta] xlo xhi) ∧
    (∀ (f₁ f₂ : ElectronOZM → List ℚ) (index ref ampl cutoff beta B : ℚ)
      (xlo xhi : List ℚ),
      f₁ (Synchrotron.mkozm index ref ampl cutoff beta B
          (((mergex xlo xhi false).getD []).map (fun e => e * 1000)))
        = f₂ (Synchrotron.mkozm index ref ampl cutoff beta B
          (((mergex xlo xhi false).getD []).map (fun e => e * 1000))) →
      Synchrotron.«calc» f₁ [index, ref, ampl, cutoff, beta, B] xlo xhi
        = Synchrotron.«calc» f₂ [index, ref, ampl, cutoff, beta, B] xlo xhi) ∧
    (∀ (f₁ f₂ : ProtonOZM → List ℚ) (index ref ampl cutoff beta : ℚ)
      (xlo xhi : List ℚ),
      f₁ (PionDecay.mkozm index ref ampl (PionDecay.cutoffArg cutoff) beta
          (((mergex xlo xhi false).getD []).map (fun e => e * 1000)))
        = f₂ (PionDecay.mkozm index ref ampl (PionDecay.cutoffArg cutoff) beta
          (((mergex xlo xhi false).getD []).map (fun e => e * 1000))) →
      PionDecay.«calc» f₁ [index, ref, ampl, cutoff, beta] xlo xhi
        = PionDecay.«calc» f₂ [index, ref, ampl, cutoff, beta] xlo xhi) := by
  refine ⟨?_, ?_, ?_⟩
  · intro f₁ f₂ index ref ampl cutoff beta xlo xhi h
    cases hg : mergex xlo xhi false with
    | none => simp [InverseCompton.«calc», hg]
    | some g =>
      rw [calc_ic_eq f₁ index ref ampl cutoff beta xlo xhi g hg,
        calc_ic_eq f₂ index ref ampl cutoff beta xlo xhi g hg]
      rw [hg, Option.getD_some] at h
      rw [h]
  · intro f₁ f₂ index ref ampl cutoff beta B xlo xhi h
    cases hg : mergex xlo xhi false with
    | none => simp [Synchrotron.«calc», hg]
    | some g =>
      rw [calc_sy_eq f₁ index ref ampl cutoff beta B xlo xhi g hg,
        calc_sy_eq f₂ index ref ampl cutoff beta B xlo xhi g hg]
      rw [hg, Option.getD_some] at h
      rw [h]
  · intro f₁ f₂ index ref ampl cutoff beta xlo xhi h
    cases hg : mergex xlo xhi false with
    | none => simp [PionDecay.«calc», hg]
    | some g =>
      rw [calc_pp_eq f₁ index ref ampl cutoff beta xlo xhi g hg,
        calc_pp_eq f₂ index ref ampl cutoff beta xlo xhi g hg]
      rw [hg, Option.getD_some] at h
      rw [h]

theorem calc_deterministic_w :
    (InverseCompton.«calc» (fun c => c.outspec) [1, 1, 1, 1, 1] [1, 2] [2, 3]
      = InverseCompton.«calc» (fun c => c.outspec.map (fun e => e * 1)) [1, 1, 1, 1, 1]
        [1, 2] [2, 3]) ∧
    (Synchrotron.«calc» (fun c => c.outspec) [1, 1, 1, 1, 1, 1] [1, 2] [2, 3]
      = Synchrotron.«calc» (fun c => c.outspec.map (fun e => e * 1)) [1, 1, 1, 1, 1, 1]
        [1, 2] [2, 3]) ∧
    (PionDecay.«calc» (fun c => c.outspec) [1, 1, 1, 1, 1] [1, 2] [2, 3]
      = PionDecay.«calc» (fun c => c.outspec.map (fun e => e * 1)) [1, 1, 1, 1, 1]
        [1, 2] [2, 3]) :=
  ⟨calc_deterministic.1 (fun c => c.outspec) (fun c => c.outspec.map (fun e => e * 1))
      1 1 1 1 1 [1, 2] [2, 3] (by norm_num [mergex, List.getLast?]),
    calc_deterministic.2.1 (fun c => c.outspec) (fun c => c.outspec.map (fun e => e * 1))
      1 1 1 1 1 1 [1, 2] [2, 3] (by norm_num [mergex, List.getLast?]),
    calc_deterministic.2.2 (fun c => c.outspec) (fun c => c.outspec.map (fun e => e * 1))
      1 1 1 1 1 [1, 2] [2, 3] (by norm_num [mergex, List.getLast?])⟩
